import Mathlib

/-!
Shallow embedding of the `AutoTrader` strategy from `TraderOne.py`
(Optiver-Ready-Trader-Go).  The trader's mutable attributes become a
structure; each callback handler becomes a state-transition function.
Commands sent back to the host (`send_insert_order`, `send_cancel_order`)
are collected in a list of `Command` values.  The order-book handler
indexes `bid_prices[0]` and `ask_prices[0]`; in Python this raises
`IndexError` on an empty list, which the embedding models by returning
`none`.
-/

namespace TraderOne

/-- `LOT_SIZE = 10` from the source constants. -/
def LOT_SIZE : Int := 10

/-- `POSITION_LIMIT = 100` from the source constants. -/
def POSITION_LIMIT : Int := 100

/-- `Instrument.FUTURE` of the `ready_trader_go` library (an `IntEnum` with value 0). -/
def Instrument.FUTURE : Nat := 0

/-- Order side, as in `ready_trader_go.Side`. -/
inductive Side where
  | BUY
  | SELL
deriving DecidableEq, Repr

/-- Order lifespan, as in `ready_trader_go.Lifespan`. -/
inductive Lifespan where
  | FILL_AND_KILL
  | GOOD_FOR_DAY
deriving DecidableEq, Repr

/-- An outbound command to the host runtime: `send_insert_order` or `send_cancel_order`. -/
inductive Command where
  | insert (orderId : Nat) (side : Side) (price : Int) (volume : Int) (lifespan : Lifespan)
  | cancel (orderId : Nat)
deriving DecidableEq, Repr

/-- The mutable state of the `AutoTrader` object: the `itertools.count(1)`
counter (`nextOrderId` is the value `next` would yield), the `bids` and
`asks` sets, and the scalar fields initialised on line 30 of the source. -/
structure AutoTrader where
  nextOrderId : Nat
  bids : Finset Nat
  asks : Finset Nat
  askId : Nat
  askPrice : Int
  bidId : Nat
  bidPrice : Int
  position : Int
deriving DecidableEq

/-- The state built by `AutoTrader.__init__`: counter at 1, empty sets, all
scalars zero. -/
def initState : AutoTrader :=
  { nextOrderId := 1
    bids := ∅
    asks := ∅
    askId := 0
    askPrice := 0
    bidId := 0
    bidPrice := 0
    position := 0 }

/-- Lines 79-90 of `on_order_book_update_message`: the mid price
(`//` is floor division, `Int.fdiv`) and the three-way branch on the sign
of `position`.  Returns `(new_bid_price, new_ask_price)`. -/
def newPrices (position b0 a0 : Int) : Int × Int :=
  if position > 0 then (Int.fdiv (b0 + a0) 2 - 10, Int.fdiv (b0 + a0) 2)
  else if position < 0 then (Int.fdiv (b0 + a0) 2, Int.fdiv (b0 + a0) 2 + 10)
  else (b0, a0)

/-- Lines 93-95: cancel the resting bid when the freshly computed bid price
is neither the recorded `bid_price` nor 0. -/
def cancelBid (s : AutoTrader) (nb : Int) : AutoTrader × List Command :=
  if s.bidId ≠ 0 ∧ nb ≠ s.bidPrice ∧ nb ≠ 0 then
    ({ s with bidId := 0 }, [Command.cancel s.bidId])
  else (s, [])

/-- Lines 96-98: the symmetric cancellation of the resting ask. -/
def cancelAsk (s : AutoTrader) (na : Int) : AutoTrader × List Command :=
  if s.askId ≠ 0 ∧ na ≠ s.askPrice ∧ na ≠ 0 then
    ({ s with askId := 0 }, [Command.cancel s.askId])
  else (s, [])

/-- Lines 93-98: the whole cancellation step, bid side then ask side. -/
def cancelPhase (s : AutoTrader) (nb na : Int) : AutoTrader × List Command :=
  ((cancelAsk (cancelBid s nb).1 na).1,
   (cancelBid s nb).2 ++ (cancelAsk (cancelBid s nb).1 na).2)

/-- Lines 101-109: insert a new bid when the slot is free, the price is
nonzero and the position guard holds; otherwise cancel a resting bid whose
new price computed to the sentinel 0. -/
def bidInsertPhase (s : AutoTrader) (nb : Int) : AutoTrader × List Command :=
  if s.bidId = 0 ∧ nb ≠ 0 ∧ s.position + LOT_SIZE < POSITION_LIMIT then
    ({ s with bidId := s.nextOrderId
              bidPrice := nb
              bids := insert s.nextOrderId s.bids
              nextOrderId := s.nextOrderId + 1 },
     [Command.insert s.nextOrderId Side.BUY nb LOT_SIZE Lifespan.GOOD_FOR_DAY])
  else if s.bidId ≠ 0 ∧ nb = 0 then
    ({ s with bidId := 0 }, [Command.cancel s.bidId])
  else (s, [])

/-- Lines 111-119: the symmetric ask-side insertion/sentinel-cancel block. -/
def askInsertPhase (s : AutoTrader) (na : Int) : AutoTrader × List Command :=
  if s.askId = 0 ∧ na ≠ 0 ∧ s.position - LOT_SIZE > -POSITION_LIMIT then
    ({ s with askId := s.nextOrderId
              askPrice := na
              asks := insert s.nextOrderId s.asks
              nextOrderId := s.nextOrderId + 1 },
     [Command.insert s.nextOrderId Side.SELL na LOT_SIZE Lifespan.GOOD_FOR_DAY])
  else if s.askId ≠ 0 ∧ na = 0 then
    ({ s with askId := 0 }, [Command.cancel s.askId])
  else (s, [])

/-- The new bid price computed by lines 79-90 for a given trader state. -/
def newBidPrice (s : AutoTrader) (b0 a0 : Int) : Int :=
  (newPrices s.position b0 a0).1

/-- The new ask price computed by lines 79-90 for a given trader state. -/
def newAskPrice (s : AutoTrader) (b0 a0 : Int) : Int :=
  (newPrices s.position b0 a0).2

/-- The trader state after the cancellation step of a book update. -/
def afterCancel (s : AutoTrader) (b0 a0 : Int) : AutoTrader :=
  (cancelPhase s (newBidPrice s b0 a0) (newAskPrice s b0 a0)).1

/-- The trader state after the cancellation step and the bid-insertion step. -/
def afterBidInsert (s : AutoTrader) (b0 a0 : Int) : AutoTrader :=
  (bidInsertPhase (afterCancel s b0 a0) (newBidPrice s b0 a0)).1

/-- Body of the `instrument == Instrument.FUTURE` branch of
`on_order_book_update_message`, given the best bid `b0` and best ask `a0`:
price computation, the cancellation step, then the two insertion steps, with
the emitted commands concatenated in program order. -/
def bookCore (s : AutoTrader) (b0 a0 : Int) : AutoTrader × List Command :=
  ((askInsertPhase (afterBidInsert s b0 a0) (newAskPrice s b0 a0)).1,
   (cancelPhase s (newBidPrice s b0 a0) (newAskPrice s b0 a0)).2 ++
     (bidInsertPhase (afterCancel s b0 a0) (newBidPrice s b0 a0)).2 ++
     (askInsertPhase (afterBidInsert s b0 a0) (newAskPrice s b0 a0)).2)

/-- `on_order_book_update_message` (lines 60-119).  `none` models the
`IndexError` raised by `bid_prices[0]` / `ask_prices[0]` on an empty list;
the exception fires before any state mutation.  Volumes and the sequence
number are accepted but unused, as in the source. -/
def on_order_book_update (s : AutoTrader) (instrument : Nat) (sequenceNumber : Nat)
    (askPrices : List Int) (askVolumes : List Int)
    (bidPrices : List Int) (bidVolumes : List Int) :
    Option (AutoTrader × List Command) :=
  if instrument = Instrument.FUTURE then
    match bidPrices.head?, askPrices.head? with
    | some b0, some a0 => some (bookCore s b0 a0)
    | _, _ => none
  else some (s, [])

/-- `on_order_filled_message` (lines 121-137): adjust `position` by the fill
volume according to which outstanding set contains the order id. -/
def on_order_filled (s : AutoTrader) (clientOrderId : Nat) (price volume : Int) :
    AutoTrader :=
  if clientOrderId ∈ s.bids then { s with position := s.position + volume }
  else if clientOrderId ∈ s.asks then { s with position := s.position - volume }
  else s

/-- `on_order_status_message` (lines 139-161): on a terminal status
(`remaining_volume == 0`) clear the matching order slot (`bid_id` first,
`elif` the ask) and discard the id from both outstanding sets. -/
def on_order_status (s : AutoTrader) (clientOrderId : Nat)
    (fillVolume remainingVolume fees : Int) : AutoTrader :=
  if remainingVolume = 0 then
    if clientOrderId = s.bidId then
      { s with bidId := 0
               bids := s.bids.erase clientOrderId
               asks := s.asks.erase clientOrderId }
    else if clientOrderId = s.askId then
      { s with askId := 0
               bids := s.bids.erase clientOrderId
               asks := s.asks.erase clientOrderId }
    else
      { s with bids := s.bids.erase clientOrderId
               asks := s.asks.erase clientOrderId }
  else s

/-- `on_error_message` (lines 32-44): a nonzero, tracked order id is forced
through the terminal-status cleanup; otherwise only a warning is logged. -/
def on_error (s : AutoTrader) (clientOrderId : Nat) : AutoTrader :=
  if clientOrderId ≠ 0 ∧ (clientOrderId ∈ s.bids ∨ clientOrderId ∈ s.asks) then
    on_order_status s clientOrderId 0 0 0
  else s

/-- One inbound notification from the host runtime.  `hedgeFilled` and
`tradeTicks` are log-only observers in the source. -/
inductive Event where
  | book (instrument sequenceNumber : Nat)
      (askPrices askVolumes bidPrices bidVolumes : List Int)
  | filled (clientOrderId : Nat) (price volume : Int)
  | status (clientOrderId : Nat) (fillVolume remainingVolume fees : Int)
  | error (clientOrderId : Nat)
  | hedgeFilled (clientOrderId : Nat) (price volume : Int)
  | tradeTicks (instrument sequenceNumber : Nat)
      (askPrices askVolumes bidPrices bidVolumes : List Int)
deriving DecidableEq, Repr

/-- The state reached after one callback invocation.  A book update whose
handler raises (`none`) leaves the state unchanged: the exception fires
before any mutation. -/
def step (s : AutoTrader) (e : Event) : AutoTrader :=
  match e with
  | .book instr seq ap av bp bv =>
      match on_order_book_update s instr seq ap av bp bv with
      | some r => r.1
      | none => s
  | .filled id p v => on_order_filled s id p v
  | .status id f r fees => on_order_status s id f r fees
  | .error id => on_error s id
  | .hedgeFilled _ _ _ => s
  | .tradeTicks _ _ _ _ _ _ => s

/-- The states reachable from the initial state by callback invocations. -/
inductive Reachable : AutoTrader → Prop where
  | init : Reachable initState
  | next : ∀ s e, Reachable s → Reachable (step s e)

/-- The state after a whole sequence of callbacks starting at `initState`. -/
def run (evs : List Event) : AutoTrader :=
  evs.foldl step initState

/-- Whether a command is an insert on the buy side. -/
def Command.isBuyInsert : Command → Bool
  | .insert _ Side.BUY _ _ _ => true
  | _ => false

/-- Whether a command is an insert on the sell side. -/
def Command.isSellInsert : Command → Bool
  | .insert _ Side.SELL _ _ _ => true
  | _ => false

/-- Whether a command list contains a buy insert. -/
def hasBuyInsert (cmds : List Command) : Bool :=
  cmds.any Command.isBuyInsert

/-- Whether a command list contains a sell insert. -/
def hasSellInsert (cmds : List Command) : Bool :=
  cmds.any Command.isSellInsert

/-- Bookkeeping invariant maintained by every callback: ids in the two
outstanding sets are below the id counter, the sets are disjoint, and a
nonzero `bidId`/`askId` belongs to the matching set. -/
def Inv (s : AutoTrader) : Prop :=
  (∀ i ∈ s.bids, i < s.nextOrderId) ∧
  (∀ i ∈ s.asks, i < s.nextOrderId) ∧
  Disjoint s.bids s.asks ∧
  (s.bidId ≠ 0 → s.bidId ∈ s.bids) ∧
  (s.askId ≠ 0 → s.askId ∈ s.asks)

/-- An id is dead for `s` when the counter has already passed it and it is
tracked in neither outstanding set: it can never be issued again. -/
def Dead (s : AutoTrader) (id : Nat) : Prop :=
  id < s.nextOrderId ∧ id ∉ s.bids ∧ id ∉ s.asks

/-- A first book update: best bid 100, best ask 200, at position 0. -/
def traceA : List Event :=
  [Event.book 0 1 [200] [] [100] []]

/-- The state after `traceA`: bid order 1 at 100 and ask order 2 at 200. -/
def stateA : AutoTrader :=
  run traceA

/-- `traceA` followed by a 90-lot fill on the resting bid (order 1). -/
def traceB : List Event :=
  [Event.book 0 1 [200] [] [100] [], Event.filled 1 100 90]

/-- The state after `traceB`: position 90 with the bid still outstanding. -/
def stateB : AutoTrader :=
  run traceB

/-- The initial state with position set to `POSITION_LIMIT - LOT_SIZE`. -/
def stateNinety : AutoTrader :=
  { initState with position := 90 }

/-! ### Helper lemmas about the phases of a book update -/

theorem cancelBid_fields (s : AutoTrader) (nb : Int) :
    (cancelBid s nb).1.bids = s.bids ∧ (cancelBid s nb).1.asks = s.asks ∧
    (cancelBid s nb).1.position = s.position ∧
    (cancelBid s nb).1.nextOrderId = s.nextOrderId ∧
    (cancelBid s nb).1.askId = s.askId ∧
    (cancelBid s nb).1.askPrice = s.askPrice ∧
    (cancelBid s nb).1.bidPrice = s.bidPrice := by
  unfold cancelBid; split_ifs <;> exact ⟨rfl, rfl, rfl, rfl, rfl, rfl, rfl⟩

theorem cancelAsk_fields (s : AutoTrader) (na : Int) :
    (cancelAsk s na).1.bids = s.bids ∧ (cancelAsk s na).1.asks = s.asks ∧
    (cancelAsk s na).1.position = s.position ∧
    (cancelAsk s na).1.nextOrderId = s.nextOrderId ∧
    (cancelAsk s na).1.bidId = s.bidId ∧
    (cancelAsk s na).1.askPrice = s.askPrice ∧
    (cancelAsk s na).1.bidPrice = s.bidPrice := by
  unfold cancelAsk; split_ifs <;> exact ⟨rfl, rfl, rfl, rfl, rfl, rfl, rfl⟩

theorem cancelPhase_bids (s : AutoTrader) (nb na : Int) :
    (cancelPhase s nb na).1.bids = s.bids :=
  ((cancelAsk_fields _ _).1).trans (cancelBid_fields s nb).1

theorem cancelPhase_asks (s : AutoTrader) (nb na : Int) :
    (cancelPhase s nb na).1.asks = s.asks :=
  ((cancelAsk_fields _ _).2.1).trans (cancelBid_fields s nb).2.1

theorem cancelPhase_position (s : AutoTrader) (nb na : Int) :
    (cancelPhase s nb na).1.position = s.position :=
  ((cancelAsk_fields _ _).2.2.1).trans (cancelBid_fields s nb).2.2.1

theorem cancelPhase_nextOrderId (s : AutoTrader) (nb na : Int) :
    (cancelPhase s nb na).1.nextOrderId = s.nextOrderId :=
  ((cancelAsk_fields _ _).2.2.2.1).trans (cancelBid_fields s nb).2.2.2.1

theorem bidInsertPhase_askId (s : AutoTrader) (nb : Int) :
    (bidInsertPhase s nb).1.askId = s.askId := by
  unfold bidInsertPhase; split_ifs <;> rfl

theorem bidInsertPhase_askPrice (s : AutoTrader) (nb : Int) :
    (bidInsertPhase s nb).1.askPrice = s.askPrice := by
  unfold bidInsertPhase; split_ifs <;> rfl

theorem bidInsertPhase_asks (s : AutoTrader) (nb : Int) :
    (bidInsertPhase s nb).1.asks = s.asks := by
  unfold bidInsertPhase; split_ifs <;> rfl

theorem bidInsertPhase_position (s : AutoTrader) (nb : Int) :
    (bidInsertPhase s nb).1.position = s.position := by
  unfold bidInsertPhase; split_ifs <;> rfl

theorem askInsertPhase_position (s : AutoTrader) (na : Int) :
    (askInsertPhase s na).1.position = s.position := by
  unfold askInsertPhase; split_ifs <;> rfl

theorem askInsertPhase_bids (s : AutoTrader) (na : Int) :
    (askInsertPhase s na).1.bids = s.bids := by
  unfold askInsertPhase; split_ifs <;> rfl

theorem askInsertPhase_bidId (s : AutoTrader) (na : Int) :
    (askInsertPhase s na).1.bidId = s.bidId := by
  unfold askInsertPhase; split_ifs <;> rfl

theorem hasBuyInsert_append (l1 l2 : List Command) :
    hasBuyInsert (l1 ++ l2) = (hasBuyInsert l1 || hasBuyInsert l2) :=
  List.any_append

theorem hasSellInsert_append (l1 l2 : List Command) :
    hasSellInsert (l1 ++ l2) = (hasSellInsert l1 || hasSellInsert l2) :=
  List.any_append

theorem hasBuyInsert_cancelPhase (s : AutoTrader) (nb na : Int) :
    hasBuyInsert (cancelPhase s nb na).2 = false := by
  unfold cancelPhase hasBuyInsert cancelBid cancelAsk
  rw [List.any_append]
  split_ifs <;> rfl

theorem hasSellInsert_cancelPhase (s : AutoTrader) (nb na : Int) :
    hasSellInsert (cancelPhase s nb na).2 = false := by
  unfold cancelPhase hasSellInsert cancelBid cancelAsk
  rw [List.any_append]
  split_ifs <;> rfl

theorem hasBuyInsert_askInsertPhase (s : AutoTrader) (na : Int) :
    hasBuyInsert (askInsertPhase s na).2 = false := by
  unfold askInsertPhase; split_ifs <;> rfl

theorem hasSellInsert_bidInsertPhase (s : AutoTrader) (nb : Int) :
    hasSellInsert (bidInsertPhase s nb).2 = false := by
  unfold bidInsertPhase; split_ifs <;> rfl

theorem hasBuyInsert_bidInsertPhase (s : AutoTrader) (nb : Int) :
    hasBuyInsert (bidInsertPhase s nb).2 = true ↔
      (s.bidId = 0 ∧ nb ≠ 0 ∧ s.position + LOT_SIZE < POSITION_LIMIT) := by
  unfold bidInsertPhase
  split_ifs with h1 h2
  · exact iff_of_true rfl h1
  · exact iff_of_false (by simp [hasBuyInsert, Command.isBuyInsert]) h1
  · exact iff_of_false (by simp [hasBuyInsert]) h1

theorem hasSellInsert_askInsertPhase (s : AutoTrader) (na : Int) :
    hasSellInsert (askInsertPhase s na).2 = true ↔
      (s.askId = 0 ∧ na ≠ 0 ∧ s.position - LOT_SIZE > -POSITION_LIMIT) := by
  unfold askInsertPhase
  split_ifs with h1 h2
  · exact iff_of_true rfl h1
  · exact iff_of_false (by simp [hasSellInsert, Command.isSellInsert]) h1
  · exact iff_of_false (by simp [hasSellInsert]) h1

theorem hasBuyInsert_bookCore (s : AutoTrader) (b0 a0 : Int) :
    hasBuyInsert (bookCore s b0 a0).2 = true ↔
      ((afterCancel s b0 a0).bidId = 0 ∧ newBidPrice s b0 a0 ≠ 0 ∧
       s.position + LOT_SIZE < POSITION_LIMIT) := by
  have hpos : (afterCancel s b0 a0).position = s.position :=
    cancelPhase_position s _ _
  rw [show (bookCore s b0 a0).2 =
        (cancelPhase s (newBidPrice s b0 a0) (newAskPrice s b0 a0)).2 ++
          (bidInsertPhase (afterCancel s b0 a0) (newBidPrice s b0 a0)).2 ++
          (askInsertPhase (afterBidInsert s b0 a0) (newAskPrice s b0 a0)).2 from rfl,
      hasBuyInsert_append, hasBuyInsert_append, hasBuyInsert_cancelPhase,
      hasBuyInsert_askInsertPhase, Bool.false_or, Bool.or_false]
  rw [hasBuyInsert_bidInsertPhase, hpos]

theorem hasSellInsert_bookCore (s : AutoTrader) (b0 a0 : Int) :
    hasSellInsert (bookCore s b0 a0).2 = true ↔
      ((afterCancel s b0 a0).askId = 0 ∧ newAskPrice s b0 a0 ≠ 0 ∧
       s.position - LOT_SIZE > -POSITION_LIMIT) := by
  have hpos : (afterBidInsert s b0 a0).position = s.position :=
    (bidInsertPhase_position _ _).trans (cancelPhase_position s _ _)
  have haid : (afterBidInsert s b0 a0).askId = (afterCancel s b0 a0).askId :=
    bidInsertPhase_askId _ _
  rw [show (bookCore s b0 a0).2 =
        (cancelPhase s (newBidPrice s b0 a0) (newAskPrice s b0 a0)).2 ++
          (bidInsertPhase (afterCancel s b0 a0) (newBidPrice s b0 a0)).2 ++
          (askInsertPhase (afterBidInsert s b0 a0) (newAskPrice s b0 a0)).2 from rfl,
      hasSellInsert_append, hasSellInsert_append, hasSellInsert_cancelPhase,
      hasSellInsert_bidInsertPhase, Bool.false_or, Bool.false_or]
  rw [hasSellInsert_askInsertPhase, hpos, haid]

/-! ### The bookkeeping invariant is preserved by every callback -/

theorem inv_initState : Inv initState := by
  refine ⟨?_, ?_, ?_, ?_, ?_⟩ <;> simp [initState]

theorem inv_cancelBid (s : AutoTrader) (nb : Int) (h : Inv s) :
    Inv (cancelBid s nb).1 := by
  obtain ⟨h1, h2, h3, h4, h5⟩ := h
  unfold cancelBid; split_ifs with hc
  · exact ⟨h1, h2, h3, fun h0 => absurd rfl h0, h5⟩
  · exact ⟨h1, h2, h3, h4, h5⟩

theorem inv_cancelAsk (s : AutoTrader) (na : Int) (h : Inv s) :
    Inv (cancelAsk s na).1 := by
  obtain ⟨h1, h2, h3, h4, h5⟩ := h
  unfold cancelAsk; split_ifs with hc
  · exact ⟨h1, h2, h3, h4, fun h0 => absurd rfl h0⟩
  · exact ⟨h1, h2, h3, h4, h5⟩

theorem inv_bidInsertPhase (s : AutoTrader) (nb : Int) (h : Inv s) :
    Inv (bidInsertPhase s nb).1 := by
  obtain ⟨h1, h2, h3, h4, h5⟩ := h
  unfold bidInsertPhase; split_ifs with hc hc2
  · refine ⟨?_, ?_, ?_, ?_, h5⟩
    · intro i hi
      rcases Finset.mem_insert.mp hi with rfl | hi
      · exact Nat.lt_succ_self _
      · exact Nat.lt_succ_of_lt (h1 i hi)
    · intro i hi
      exact Nat.lt_succ_of_lt (h2 i hi)
    · exact Finset.disjoint_insert_left.mpr
        ⟨fun hmem => lt_irrefl _ (h2 _ hmem), h3⟩
    · intro _
      exact Finset.mem_insert_self _ _
  · exact ⟨h1, h2, h3, fun h0 => absurd rfl h0, h5⟩
  · exact ⟨h1, h2, h3, h4, h5⟩

theorem inv_askInsertPhase (s : AutoTrader) (na : Int) (h : Inv s) :
    Inv (askInsertPhase s na).1 := by
  obtain ⟨h1, h2, h3, h4, h5⟩ := h
  unfold askInsertPhase; split_ifs with hc hc2
  · refine ⟨?_, ?_, ?_, h4, ?_⟩
    · intro i hi
      exact Nat.lt_succ_of_lt (h1 i hi)
    · intro i hi
      rcases Finset.mem_insert.mp hi with rfl | hi
      · exact Nat.lt_succ_self _
      · exact Nat.lt_succ_of_lt (h2 i hi)
    · exact (Finset.disjoint_insert_left.mpr
        ⟨fun hmem => lt_irrefl _ (h1 _ hmem), h3.symm⟩).symm
    · intro _
      exact Finset.mem_insert_self _ _
  · exact ⟨h1, h2, h3, h4, fun h0 => absurd rfl h0⟩
  · exact ⟨h1, h2, h3, h4, h5⟩

theorem inv_bookCore (s : AutoTrader) (b0 a0 : Int) (h : Inv s) :
    Inv (bookCore s b0 a0).1 :=
  inv_askInsertPhase _ _ (inv_bidInsertPhase _ _
    (inv_cancelAsk _ _ (inv_cancelBid _ _ h)))

theorem inv_filled (s : AutoTrader) (id : Nat) (p v : Int) (h : Inv s) :
    Inv (on_order_filled s id p v) := by
  obtain ⟨h1, h2, h3, h4, h5⟩ := h
  unfold on_order_filled; split_ifs <;> exact ⟨h1, h2, h3, h4, h5⟩

theorem inv_status (s : AutoTrader) (id : Nat) (f r fees : Int) (h : Inv s) :
    Inv (on_order_status s id f r fees) := by
  obtain ⟨h1, h2, h3, h4, h5⟩ := h
  have hsub : ∀ t : Finset Nat, t.erase id ⊆ t := fun t => Finset.erase_subset id t
  have hdisj : Disjoint (s.bids.erase id) (s.asks.erase id) :=
    h3.mono (hsub s.bids) (hsub s.asks)
  unfold on_order_status; split_ifs with hr hb ha
  · refine ⟨fun i hi => h1 i (Finset.mem_of_mem_erase hi),
      fun i hi => h2 i (Finset.mem_of_mem_erase hi), hdisj,
      fun h0 => absurd rfl h0, ?_⟩
    intro h0
    refine Finset.mem_erase.mpr ⟨?_, h5 h0⟩
    intro heq
    by_cases hbz : s.bidId = 0
    · exact h0 (heq.trans (hb.trans hbz))
    · exact (Finset.disjoint_left.mp h3 (h4 hbz)) (hb ▸ heq ▸ h5 h0)
  · refine ⟨fun i hi => h1 i (Finset.mem_of_mem_erase hi),
      fun i hi => h2 i (Finset.mem_of_mem_erase hi), hdisj, ?_,
      fun h0 => absurd rfl h0⟩
    intro h0
    exact Finset.mem_erase.mpr ⟨fun heq => hb (heq.symm), h4 h0⟩
  · refine ⟨fun i hi => h1 i (Finset.mem_of_mem_erase hi),
      fun i hi => h2 i (Finset.mem_of_mem_erase hi), hdisj, ?_, ?_⟩
    · intro h0
      exact Finset.mem_erase.mpr ⟨fun heq => hb (heq.symm), h4 h0⟩
    · intro h0
      exact Finset.mem_erase.mpr ⟨fun heq => ha (heq.symm), h5 h0⟩
  · exact ⟨h1, h2, h3, h4, h5⟩

theorem inv_error (s : AutoTrader) (id : Nat) (h : Inv s) :
    Inv (on_error s id) := by
  unfold on_error; split_ifs with hc
  · exact inv_status s id 0 0 0 h
  · exact h

theorem inv_step (s : AutoTrader) (e : Event) (h : Inv s) : Inv (step s e) := by
  cases e with
  | book instr seq ap av bp bv =>
      simp only [step, on_order_book_update]
      split_ifs with hi
      · cases hb : bp.head? with
        | none => cases ha : ap.head? with
          | none => simp only [hb, ha]; exact h
          | some a0 => simp only [hb, ha]; exact h
        | some b0 => cases ha : ap.head? with
          | none => simp only [hb, ha]; exact h
          | some a0 => simp only [hb, ha]; exact inv_bookCore s b0 a0 h
      · exact h
  | filled id p v => exact inv_filled s id p v h
  | status id f r fees => exact inv_status s id f r fees h
  | error id => exact inv_error s id h
  | hedgeFilled id p v => exact h
  | tradeTicks instr seq ap av bp bv => exact h

theorem reachable_inv (s : AutoTrader) (h : Reachable s) : Inv s := by
  induction h with
  | init => exact inv_initState
  | next s e _ ih => exact inv_step s e ih

/-! ### A dead id stays dead: the counter never reissues it -/

theorem dead_cancelBid (s : AutoTrader) (nb : Int) (id : Nat) (h : Dead s id) :
    Dead (cancelBid s nb).1 id := by
  unfold cancelBid; split_ifs <;> exact h

theorem dead_cancelAsk (s : AutoTrader) (na : Int) (id : Nat) (h : Dead s id) :
    Dead (cancelAsk s na).1 id := by
  unfold cancelAsk; split_ifs <;> exact h

theorem dead_bidInsertPhase (s : AutoTrader) (nb : Int) (id : Nat) (h : Dead s id) :
    Dead (bidInsertPhase s nb).1 id := by
  obtain ⟨h1, h2, h3⟩ := h
  unfold bidInsertPhase; split_ifs with hc hc2
  · refine ⟨Nat.lt_succ_of_lt h1, ?_, h3⟩
    intro hmem
    rcases Finset.mem_insert.mp hmem with rfl | hmem
    · exact absurd h1 (lt_irrefl _)
    · exact h2 hmem
  · exact ⟨h1, h2, h3⟩
  · exact ⟨h1, h2, h3⟩

theorem dead_askInsertPhase (s : AutoTrader) (na : Int) (id : Nat) (h : Dead s id) :
    Dead (askInsertPhase s na).1 id := by
  obtain ⟨h1, h2, h3⟩ := h
  unfold askInsertPhase; split_ifs with hc hc2
  · refine ⟨Nat.lt_succ_of_lt h1, h2, ?_⟩
    intro hmem
    rcases Finset.mem_insert.mp hmem with rfl | hmem
    · exact absurd h1 (lt_irrefl _)
    · exact h3 hmem
  · exact ⟨h1, h2, h3⟩
  · exact ⟨h1, h2, h3⟩

theorem dead_bookCore (s : AutoTrader) (b0 a0 : Int) (id : Nat) (h : Dead s id) :
    Dead (bookCore s b0 a0).1 id :=
  dead_askInsertPhase _ _ _ (dead_bidInsertPhase _ _ _
    (dead_cancelAsk _ _ _ (dead_cancelBid _ _ _ h)))

theorem dead_filled (s : AutoTrader) (id0 : Nat) (p v : Int) (id : Nat)
    (h : Dead s id) : Dead (on_order_filled s id0 p v) id := by
  unfold on_order_filled; split_ifs <;> exact h

theorem dead_status (s : AutoTrader) (id0 : Nat) (f r fees : Int) (id : Nat)
    (h : Dead s id) : Dead (on_order_status s id0 f r fees) id := by
  obtain ⟨h1, h2, h3⟩ := h
  unfold on_order_status; split_ifs <;>
    first
      | exact ⟨h1, fun hm => h2 (Finset.mem_of_mem_erase hm),
          fun hm => h3 (Finset.mem_of_mem_erase hm)⟩
      | exact ⟨h1, h2, h3⟩

theorem dead_error (s : AutoTrader) (id0 : Nat) (id : Nat) (h : Dead s id) :
    Dead (on_error s id0) id := by
  unfold on_error; split_ifs with hc
  · exact dead_status s id0 0 0 0 id h
  · exact h

theorem dead_step (s : AutoTrader) (e : Event) (id : Nat) (h : Dead s id) :
    Dead (step s e) id := by
  cases e with
  | book instr seq ap av bp bv =>
      simp only [step, on_order_book_update]
      split_ifs with hi
      · cases hb : bp.head? with
        | none => cases ha : ap.head? with
          | none => simp only [hb, ha]; exact h
          | some a0 => simp only [hb, ha]; exact h
        | some b0 => cases ha : ap.head? with
          | none => simp only [hb, ha]; exact h
          | some a0 => simp only [hb, ha]; exact dead_bookCore s b0 a0 id h
      · exact h
  | filled id0 p v => exact dead_filled s id0 p v id h
  | status id0 f r fees => exact dead_status s id0 f r fees id h
  | error id0 => exact dead_error s id0 id h
  | hedgeFilled id0 p v => exact h
  | tradeTicks instr seq ap av bp bv => exact h

theorem dead_foldl (evs : List Event) :
    ∀ s id, Dead s id → Dead (evs.foldl step s) id := by
  induction evs with
  | nil => intro s id h; exact h
  | cons e rest ih =>
      intro s id h
      exact ih (step s e) id (dead_step s e id h)

theorem status_dead (s : AutoTrader) (id : Nat) (f fees : Int)
    (hid : id < s.nextOrderId) : Dead (on_order_status s id f 0 fees) id := by
  unfold on_order_status; split_ifs with hr hb ha
  · exact ⟨hid, Finset.not_mem_erase id _, Finset.not_mem_erase id _⟩
  · exact ⟨hid, Finset.not_mem_erase id _, Finset.not_mem_erase id _⟩
  · exact ⟨hid, Finset.not_mem_erase id _, Finset.not_mem_erase id _⟩
  · exact absurd rfl hr

theorem filled_of_untracked (s : AutoTrader) (id : Nat) (p v : Int)
    (h1 : id ∉ s.bids) (h2 : id ∉ s.asks) : on_order_filled s id p v = s := by
  unfold on_order_filled
  rw [if_neg h1, if_neg h2]

/-! ### Helper lemmas about the status handler and the insertion phases -/

theorem status_bids_erase (s : AutoTrader) (id : Nat) (f fees : Int) :
    (on_order_status s id f 0 fees).bids = s.bids.erase id := by
  unfold on_order_status
  rw [if_pos rfl]
  split_ifs <;> rfl

theorem status_asks_erase (s : AutoTrader) (id : Nat) (f fees : Int) :
    (on_order_status s id f 0 fees).asks = s.asks.erase id := by
  unfold on_order_status
  rw [if_pos rfl]
  split_ifs <;> rfl

theorem status_position (s : AutoTrader) (id : Nat) (f fees : Int) :
    (on_order_status s id f 0 fees).position = s.position := by
  unfold on_order_status
  rw [if_pos rfl]
  split_ifs <;> rfl

theorem status_bidId_of_eq (s : AutoTrader) (id : Nat) (f fees : Int)
    (h : id = s.bidId) : (on_order_status s id f 0 fees).bidId = 0 := by
  unfold on_order_status
  rw [if_pos rfl, if_pos h]

theorem status_askId_of_ne_of_eq (s : AutoTrader) (id : Nat) (f fees : Int)
    (h1 : id ≠ s.bidId) (h2 : id = s.askId) :
    (on_order_status s id f 0 fees).askId = 0 ∧
    (on_order_status s id f 0 fees).bidId = s.bidId := by
  unfold on_order_status
  rw [if_pos rfl, if_neg h1, if_pos h2]
  exact ⟨rfl, rfl⟩

theorem status_ids_of_ne (s : AutoTrader) (id : Nat) (f fees : Int)
    (h1 : id ≠ s.bidId) (h2 : id ≠ s.askId) :
    (on_order_status s id f 0 fees).bidId = s.bidId ∧
    (on_order_status s id f 0 fees).askId = s.askId := by
  unfold on_order_status
  rw [if_pos rfl, if_neg h1, if_neg h2]
  exact ⟨rfl, rfl⟩

theorem bids_subset_bidInsertPhase (s : AutoTrader) (nb : Int) :
    s.bids ⊆ (bidInsertPhase s nb).1.bids := by
  unfold bidInsertPhase
  split_ifs
  · exact Finset.subset_insert _ _
  · exact Finset.Subset.refl _
  · exact Finset.Subset.refl _

theorem asks_subset_askInsertPhase (s : AutoTrader) (na : Int) :
    s.asks ⊆ (askInsertPhase s na).1.asks := by
  unfold askInsertPhase
  split_ifs
  · exact Finset.subset_insert _ _
  · exact Finset.Subset.refl _
  · exact Finset.Subset.refl _

theorem fdiv_two_eq_floor (x : Int) : Int.fdiv x 2 = ⌊((x : ℚ)) / 2⌋ := by
  rw [show ((2 : ℚ)) = ((2 : ℕ) : ℚ) by norm_num,
    Rat.floor_intCast_div_natCast, Int.fdiv_eq_ediv x (by norm_num)]
  norm_num

theorem foldl_reachable (evs : List Event) :
    ∀ s, Reachable s → Reachable (evs.foldl step s) := by
  induction evs with
  | nil => intro s hs; exact hs
  | cons e rest ih =>
      intro s hs
      exact ih (step s e) (Reachable.next s e hs)

theorem run_reachable (evs : List Event) : Reachable (run evs) :=
  foldl_reachable evs initState Reachable.init

/-! ### The claims -/

/-- Claim C1: on every book update of the tracked instrument, with
`mid = (best_bid + best_ask) // 2` (flooring division, equal to the rational
floor), a positive position quotes `new_ask = mid`, `new_bid = mid - 10`; a
negative position quotes `new_bid = mid`, `new_ask = mid + 10`; a flat
position quotes the top of book. -/
theorem quote_skew_rule (s : AutoTrader) (b0 a0 : Int) :
    Int.fdiv (b0 + a0) 2 = ⌊(((b0 + a0 : Int)) : ℚ) / 2⌋ ∧
    (s.position > 0 →
       newAskPrice s b0 a0 = Int.fdiv (b0 + a0) 2 ∧
       newBidPrice s b0 a0 = Int.fdiv (b0 + a0) 2 - 10) ∧
    (s.position < 0 →
       newBidPrice s b0 a0 = Int.fdiv (b0 + a0) 2 ∧
       newAskPrice s b0 a0 = Int.fdiv (b0 + a0) 2 + 10) ∧
    (s.position = 0 →
       newBidPrice s b0 a0 = b0 ∧ newAskPrice s b0 a0 = a0) := by
  refine ⟨fdiv_two_eq_floor _, fun h => ?_, fun h => ?_, fun h => ?_⟩ <;>
    unfold newBidPrice newAskPrice newPrices
  · rw [if_pos h]
    exact ⟨rfl, rfl⟩
  · rw [if_neg (by omega : ¬s.position > 0), if_pos h]
    exact ⟨rfl, rfl⟩
  · rw [if_neg (by omega : ¬s.position > 0), if_neg (by omega : ¬s.position < 0)]
    exact ⟨rfl, rfl⟩

/-- Witness for C1: at the state with position 90 after `traceB`, the quotes
for a 9950/10050 book are ask 10000 and bid 9990. -/
theorem quote_skew_rule_witness :
    newAskPrice stateB 9950 10050 = Int.fdiv (9950 + 10050) 2 ∧
    newBidPrice stateB 9950 10050 = Int.fdiv (9950 + 10050) 2 - 10 :=
  (quote_skew_rule stateB 9950 10050).2.1 (by decide)

/-- Claim C2 counterexample: the order-book handler raises `IndexError`
(modelled as `none`) on the tracked instrument when the price lists are
empty, so it does not run to completion on every input. -/
theorem book_update_raises_on_empty_book :
    on_order_book_update initState Instrument.FUTURE 1 [] [] [] [] = none := rfl

/-- Claim C2 as amended: the order-book handler runs to completion whenever
the update is for another instrument or both price lists are non-empty (the
fill, status and error handlers are total functions of the model and never
raise). -/
theorem handlers_do_not_raise_on_nonempty_book (s : AutoTrader)
    (instrument seq : Nat) (ap av bp bv : List Int)
    (h : instrument = Instrument.FUTURE → bp ≠ [] ∧ ap ≠ []) :
    (on_order_book_update s instrument seq ap av bp bv).isSome = true := by
  unfold on_order_book_update
  split_ifs with hi
  · obtain ⟨hbp, hap⟩ := h hi
    cases bp with
    | nil => exact absurd rfl hbp
    | cons b bs =>
        cases ap with
        | nil => exact absurd rfl hap
        | cons a as => rfl
  · rfl

/-- Witness for amended C2: a book update with one level on each side is
handled. -/
theorem handlers_do_not_raise_witness :
    (on_order_book_update initState 0 1 [10100] [] [9900] []).isSome = true :=
  handlers_do_not_raise_on_nonempty_book initState 0 1 [10100] [] [9900] []
    (fun _ => ⟨by decide, by decide⟩)

/-- Claim C3 counterexample: after a book update that rests a bid and a
90-lot fill on it, the state is reachable, the bid is still outstanding
(`bid_id ≠ 0`), yet `position + LOT_SIZE ≥ POSITION_LIMIT`. -/
theorem outstanding_bid_at_position_cap :
    Reachable stateB ∧ stateB.bidId ≠ 0 ∧
    stateB.position + LOT_SIZE ≥ POSITION_LIMIT :=
  ⟨run_reachable traceB, by decide, by decide⟩

/-- Claim C3 as amended: the position cap is enforced at insertion time — a
book update only emits a buy insert when `position + LOT_SIZE <
POSITION_LIMIT` and a sell insert when `position - LOT_SIZE >
-POSITION_LIMIT`; an already-outstanding order may later coexist with a
position at the cap. -/
theorem position_guard_at_insert_time (s : AutoTrader) (b0 a0 : Int) :
    (hasBuyInsert (bookCore s b0 a0).2 = true →
       s.position + LOT_SIZE < POSITION_LIMIT) ∧
    (hasSellInsert (bookCore s b0 a0).2 = true →
       s.position - LOT_SIZE > -POSITION_LIMIT) :=
  ⟨fun h => ((hasBuyInsert_bookCore s b0 a0).mp h).2.2,
   fun h => ((hasSellInsert_bookCore s b0 a0).mp h).2.2⟩

/-- Witness for amended C3: the first book update emits a buy insert, and
indeed the initial position satisfies the guard. -/
theorem position_guard_witness :
    initState.position + LOT_SIZE < POSITION_LIMIT :=
  (position_guard_at_insert_time initState 100 200).1 (by decide)

/-- Claim C4: a book update emits a buy insert exactly when, after the
cancellation step, `bid_id = 0`, the computed bid price is nonzero, and
`position + LOT_SIZE < POSITION_LIMIT` holds strictly; symmetrically for the
sell side; in particular no buy insert is emitted at position
`POSITION_LIMIT - LOT_SIZE`. -/
theorem insert_issuance_conditions (s : AutoTrader) (b0 a0 : Int) :
    (hasBuyInsert (bookCore s b0 a0).2 = true ↔
       ((afterCancel s b0 a0).bidId = 0 ∧ newBidPrice s b0 a0 ≠ 0 ∧
        s.position + LOT_SIZE < POSITION_LIMIT)) ∧
    (hasSellInsert (bookCore s b0 a0).2 = true ↔
       ((afterCancel s b0 a0).askId = 0 ∧ newAskPrice s b0 a0 ≠ 0 ∧
        s.position - LOT_SIZE > -POSITION_LIMIT)) ∧
    (s.position = POSITION_LIMIT - LOT_SIZE →
       hasBuyInsert (bookCore s b0 a0).2 = false) := by
  refine ⟨hasBuyInsert_bookCore s b0 a0, hasSellInsert_bookCore s b0 a0, ?_⟩
  intro hp
  cases hb : hasBuyInsert (bookCore s b0 a0).2 with
  | false => rfl
  | true =>
      have hlt := ((hasBuyInsert_bookCore s b0 a0).mp hb).2.2
      rw [hp] at hlt
      norm_num [POSITION_LIMIT, LOT_SIZE] at hlt

/-- Witness for C4: at position 90 with a free bid slot and a nonzero
computed bid price, no buy insert is emitted. -/
theorem insert_issuance_witness :
    hasBuyInsert (bookCore stateNinety 9900 10100).2 = false :=
  (insert_issuance_conditions stateNinety 9900 10100).2.2 (by decide)

/-- Claim C5: a fill on an id in the outstanding-buys set adds the volume to
the position; otherwise a fill on an id in the outstanding-sells set
subtracts it; a fill on an id in neither set leaves the whole state
unchanged. -/
theorem fill_attribution (s : AutoTrader) (id : Nat) (p v : Int) :
    (id ∈ s.bids →
       on_order_filled s id p v = { s with position := s.position + v }) ∧
    (id ∉ s.bids → id ∈ s.asks →
       on_order_filled s id p v = { s with position := s.position - v }) ∧
    (id ∉ s.bids → id ∉ s.asks → on_order_filled s id p v = s) := by
  refine ⟨fun h1 => ?_, fun h1 h2 => ?_, fun h1 h2 => ?_⟩ <;>
    unfold on_order_filled
  · rw [if_pos h1]
  · rw [if_neg h1, if_pos h2]
  · rw [if_neg h1, if_neg h2]

/-- Witness for C5: a 50-lot fill on tracked buy order 1 raises the position
by 50. -/
theorem fill_attribution_witness :
    on_order_filled stateA 1 100 50 =
      { stateA with position := stateA.position + 50 } :=
  (fill_attribution stateA 1 100 50).1 (by decide)

/-- Claim C6: when a resting bid exists and the newly computed bid price is
neither the recorded price nor 0, the cancellation step emits a cancel for
`bid_id` and clears the slot; symmetrically for the ask; the cancellation
step precedes both insert decisions (the command list is cancel commands
followed by insert commands, and the insert phases read the post-cancel
state); the update never removes ids from the outstanding sets. -/
theorem cancel_before_insert (s : AutoTrader) (b0 a0 : Int) :
    (s.bidId ≠ 0 → newBidPrice s b0 a0 ≠ s.bidPrice → newBidPrice s b0 a0 ≠ 0 →
       Command.cancel s.bidId ∈
         (cancelPhase s (newBidPrice s b0 a0) (newAskPrice s b0 a0)).2 ∧
       (afterCancel s b0 a0).bidId = 0) ∧
    (s.askId ≠ 0 → newAskPrice s b0 a0 ≠ s.askPrice → newAskPrice s b0 a0 ≠ 0 →
       Command.cancel s.askId ∈
         (cancelPhase s (newBidPrice s b0 a0) (newAskPrice s b0 a0)).2 ∧
       (afterCancel s b0 a0).askId = 0) ∧
    (bookCore s b0 a0).2 =
      (cancelPhase s (newBidPrice s b0 a0) (newAskPrice s b0 a0)).2 ++
        (bidInsertPhase (afterCancel s b0 a0) (newBidPrice s b0 a0)).2 ++
        (askInsertPhase (afterBidInsert s b0 a0) (newAskPrice s b0 a0)).2 ∧
    (bookCore s b0 a0).1 =
      (askInsertPhase (afterBidInsert s b0 a0) (newAskPrice s b0 a0)).1 ∧
    s.bids ⊆ (bookCore s b0 a0).1.bids ∧
    s.asks ⊆ (bookCore s b0 a0).1.asks := by
  refine ⟨?_, ?_, rfl, rfl, ?_, ?_⟩
  · intro h1 h2 h3
    have hc : cancelBid s (newBidPrice s b0 a0) =
        ({ s with bidId := 0 }, [Command.cancel s.bidId]) := by
      unfold cancelBid
      rw [if_pos ⟨h1, h2, h3⟩]
    constructor
    · show Command.cancel s.bidId ∈
        (cancelBid s (newBidPrice s b0 a0)).2 ++
          (cancelAsk (cancelBid s (newBidPrice s b0 a0)).1 (newAskPrice s b0 a0)).2
      rw [hc]
      exact List.mem_append_left _ (by simp)
    · show (cancelAsk (cancelBid s (newBidPrice s b0 a0)).1
          (newAskPrice s b0 a0)).1.bidId = 0
      rw [hc, (cancelAsk_fields _ _).2.2.2.2.1]
  · intro h1 h2 h3
    have ha1 : (cancelBid s (newBidPrice s b0 a0)).1.askId = s.askId :=
      (cancelBid_fields _ _).2.2.2.2.1
    have ha2 : (cancelBid s (newBidPrice s b0 a0)).1.askPrice = s.askPrice :=
      (cancelBid_fields _ _).2.2.2.2.2.1
    have hc : cancelAsk (cancelBid s (newBidPrice s b0 a0)).1 (newAskPrice s b0 a0) =
        ({ (cancelBid s (newBidPrice s b0 a0)).1 with askId := 0 },
         [Command.cancel (cancelBid s (newBidPrice s b0 a0)).1.askId]) := by
      unfold cancelAsk
      rw [if_pos ⟨by rw [ha1]; exact h1, by rw [ha2]; exact h2, h3⟩]
    constructor
    · show Command.cancel s.askId ∈
        (cancelBid s (newBidPrice s b0 a0)).2 ++
          (cancelAsk (cancelBid s (newBidPrice s b0 a0)).1 (newAskPrice s b0 a0)).2
      refine List.mem_append_right _ ?_
      rw [hc]
      simp [ha1]
    · show (cancelAsk (cancelBid s (newBidPrice s b0 a0)).1
          (newAskPrice s b0 a0)).1.askId = 0
      rw [hc]
  · show s.bids ⊆ (askInsertPhase (afterBidInsert s b0 a0) (newAskPrice s b0 a0)).1.bids
    rw [askInsertPhase_bids]
    unfold afterBidInsert
    refine Finset.Subset.trans ?_ (bids_subset_bidInsertPhase _ _)
    unfold afterCancel
    rw [cancelPhase_bids]
  · show s.asks ⊆ (askInsertPhase (afterBidInsert s b0 a0) (newAskPrice s b0 a0)).1.asks
    refine Finset.Subset.trans ?_ (asks_subset_askInsertPhase _ _)
    unfold afterBidInsert
    rw [bidInsertPhase_asks]
    unfold afterCancel
    rw [cancelPhase_asks]

/-- Witness for C6: at `stateA` (bid 1 quoted at 100) with a 150/250 book at
position 0, the new bid price 150 differs from 100, so the cancellation step
cancels order 1 and clears the slot. -/
theorem cancel_before_insert_witness :
    Command.cancel stateA.bidId ∈
      (cancelPhase stateA (newBidPrice stateA 150 250) (newAskPrice stateA 150 250)).2 ∧
    (afterCancel stateA 150 250).bidId = 0 :=
  (cancel_before_insert stateA 150 250).1 (by decide) (by decide) (by decide)

/-- Claim C7: on a terminal status (`remaining_volume = 0`) the id is erased
from both outstanding sets, `bid_id` is cleared when it matches, `elif`
`ask_id` is cleared when it matches, the position is untouched; a
non-terminal status changes nothing; and a terminal status for an
already-cleared id is a no-op. -/
theorem terminal_status_cleanup (s : AutoTrader) (id : Nat) (f rv fees : Int) :
    (rv = 0 →
       (on_order_status s id f rv fees).bids = s.bids.erase id ∧
       (on_order_status s id f rv fees).asks = s.asks.erase id ∧
       (on_order_status s id f rv fees).position = s.position ∧
       (id = s.bidId → (on_order_status s id f rv fees).bidId = 0) ∧
       (id ≠ s.bidId → id = s.askId →
          (on_order_status s id f rv fees).askId = 0 ∧
          (on_order_status s id f rv fees).bidId = s.bidId) ∧
       (id ≠ s.bidId → id ≠ s.askId →
          (on_order_status s id f rv fees).bidId = s.bidId ∧
          (on_order_status s id f rv fees).askId = s.askId)) ∧
    (rv ≠ 0 → on_order_status s id f rv fees = s) ∧
    (id ∉ s.bids → id ∉ s.asks → (id = s.bidId → s.bidId = 0) →
       (id = s.askId → s.askId = 0) →
       on_order_status s id f 0 fees = s) := by
  refine ⟨fun hr => ?_, fun hr => ?_, fun hb ha hbid hask => ?_⟩
  · subst hr
    exact ⟨status_bids_erase s id f fees, status_asks_erase s id f fees,
      status_position s id f fees, fun h => status_bidId_of_eq s id f fees h,
      fun h1 h2 => status_askId_of_ne_of_eq s id f fees h1 h2,
      fun h1 h2 => status_ids_of_ne s id f fees h1 h2⟩
  · unfold on_order_status
    rw [if_neg hr]
  · unfold on_order_status
    rw [if_pos rfl]
    split_ifs with h1 h2
    · rw [Finset.erase_eq_of_not_mem hb, Finset.erase_eq_of_not_mem ha, ← hbid h1]
    · rw [Finset.erase_eq_of_not_mem hb, Finset.erase_eq_of_not_mem ha, ← hask h2]
    · rw [Finset.erase_eq_of_not_mem hb, Finset.erase_eq_of_not_mem ha]

/-- Witness for C7: a terminal status for ask order 2 in `stateA` erases it
from the outstanding-sells set and clears `ask_id`. -/
theorem terminal_status_cleanup_witness :
    (on_order_status stateA 2 0 0 0).asks = stateA.asks.erase 2 ∧
    (on_order_status stateA 2 0 0 0).askId = 0 :=
  ⟨((terminal_status_cleanup stateA 2 0 0 0).1 rfl).2.1,
   (((terminal_status_cleanup stateA 2 0 0 0).1 rfl).2.2.2.2.1
     (by decide) (by decide)).1⟩

/-- Claim C8: an error for a nonzero id tracked in either outstanding set
yields exactly the state of a terminal status for that id (slot cleared, id
erased from both sets); an error for id 0 or an untracked id changes
nothing. -/
theorem error_forces_terminal_cleanup (s : AutoTrader) (id : Nat) :
    (id ≠ 0 → id ∈ s.bids ∨ id ∈ s.asks →
       on_error s id = on_order_status s id 0 0 0 ∧
       (on_error s id).bids = s.bids.erase id ∧
       (on_error s id).asks = s.asks.erase id ∧
       (id = s.bidId → (on_error s id).bidId = 0) ∧
       (id ≠ s.bidId → id = s.askId → (on_error s id).askId = 0)) ∧
    (id = 0 ∨ (id ∉ s.bids ∧ id ∉ s.asks) → on_error s id = s) := by
  constructor
  · intro h0 htr
    have he : on_error s id = on_order_status s id 0 0 0 := by
      unfold on_error
      rw [if_pos ⟨h0, htr⟩]
    refine ⟨he, ?_, ?_, fun h => ?_, fun h1 h2 => ?_⟩ <;> rw [he]
    · exact status_bids_erase s id 0 0
    · exact status_asks_erase s id 0 0
    · exact status_bidId_of_eq s id 0 0 h
    · exact (status_askId_of_ne_of_eq s id 0 0 h1 h2).1
  · intro h
    unfold on_error
    rcases h with h0 | ⟨hb, ha⟩
    · rw [if_neg]
      intro hc
      exact hc.1 h0
    · rw [if_neg]
      intro hc
      rcases hc.2 with hm | hm
      · exact hb hm
      · exact ha hm

/-- Witness for C8: an error on tracked buy order 1 in `stateA` performs the
terminal-status cleanup. -/
theorem error_cleanup_witness :
    on_error stateA 1 = on_order_status stateA 1 0 0 0 ∧
    (on_error stateA 1).bids = stateA.bids.erase 1 :=
  ⟨((error_forces_terminal_cleanup stateA 1).1 (by decide) (Or.inl (by decide))).1,
   ((error_forces_terminal_cleanup stateA 1).1 (by decide) (Or.inl (by decide))).2.1⟩

/-- Claim C9: in every reachable state the outstanding-buys and
outstanding-sells sets are disjoint, a nonzero `bid_id` belongs to
outstanding-buys, and a nonzero `ask_id` belongs to outstanding-sells. -/
theorem tracking_invariant (s : AutoTrader) (hs : Reachable s) :
    Disjoint s.bids s.asks ∧
    (s.bidId ≠ 0 → s.bidId ∈ s.bids) ∧
    (s.askId ≠ 0 → s.askId ∈ s.asks) := by
  obtain ⟨h1, h2, h3, h4, h5⟩ := reachable_inv s hs
  exact ⟨h3, h4, h5⟩

/-- Witness for C9: the invariant instantiated at the reachable state
`stateA`, whose slots 1 and 2 are both occupied. -/
theorem tracking_invariant_witness :
    Disjoint stateA.bids stateA.asks ∧
    stateA.bidId ∈ stateA.bids ∧ stateA.askId ∈ stateA.asks :=
  ⟨(tracking_invariant stateA (run_reachable traceA)).1,
   (tracking_invariant stateA (run_reachable traceA)).2.1 (by decide),
   (tracking_invariant stateA (run_reachable traceA)).2.2 (by decide)⟩

/-- Claim C10: once a terminal status — or an error on a tracked id — is
processed for an id the counter has already issued, the id is out of both
outstanding sets in every later state, so any later fill for it leaves the
state unchanged; the strictly increasing counter never reissues it. -/
theorem no_double_count_after_terminal (s : AutoTrader) (hs : Reachable s)
    (id : Nat) (hid : id < s.nextOrderId) (f fees : Int) (evs : List Event)
    (p v : Int) :
    (id ∉ (List.foldl step (on_order_status s id f 0 fees) evs).bids ∧
     id ∉ (List.foldl step (on_order_status s id f 0 fees) evs).asks ∧
     on_order_filled (List.foldl step (on_order_status s id f 0 fees) evs) id p v =
       List.foldl step (on_order_status s id f 0 fees) evs) ∧
    (id ≠ 0 → id ∈ s.bids ∨ id ∈ s.asks →
       id ∉ (List.foldl step (on_error s id) evs).bids ∧
       id ∉ (List.foldl step (on_error s id) evs).asks ∧
       on_order_filled (List.foldl step (on_error s id) evs) id p v =
         List.foldl step (on_error s id) evs) := by
  constructor
  · have hd := dead_foldl evs (on_order_status s id f 0 fees) id
      (status_dead s id f fees hid)
    exact ⟨hd.2.1, hd.2.2, filled_of_untracked _ _ _ _ hd.2.1 hd.2.2⟩
  · intro h0 htr
    have he : on_error s id = on_order_status s id 0 0 0 := by
      unfold on_error
      rw [if_pos ⟨h0, htr⟩]
    rw [he]
    have hd := dead_foldl evs (on_order_status s id 0 0 0) id
      (status_dead s id 0 0 hid)
    exact ⟨hd.2.1, hd.2.2, filled_of_untracked _ _ _ _ hd.2.1 hd.2.2⟩

/-- Witness for C10: after a terminal status for order 1 at `stateA` and a
further book update, a late fill for order 1 no longer changes the state. -/
theorem no_double_count_witness :
    on_order_filled (List.foldl step (on_order_status stateA 1 0 0 0) traceA) 1 100 50 =
      List.foldl step (on_order_status stateA 1 0 0 0) traceA :=
  ((no_double_count_after_terminal stateA (run_reachable traceA) 1 (by decide)
    0 0 traceA 100 50).1).2.2

end TraderOne
